import Mathlib

set_option autoImplicit false

/-- Runtime value of the interpreter. The capability boundary treats values as
opaque and cloneable (spec section 1), so the model wraps a natural number. -/
structure Value where
  val : Nat
deriving DecidableEq

/-- Abstract 64-bit float produced by the backend's random generator; its
numeric semantics play no role at the capability boundary. -/
structure F64 where
  bits : Nat
deriving DecidableEq

/-- Environment handle: opaque to this core, used only to construct errors
attributed to the calling context, via the factory method error. -/
structure Env where
  ctx : String
deriving DecidableEq

/-- Runtime errors crossing the capability boundary. ctxErr models the result
of Env::error (context plus message); impWrap models the RuntimeError::Import
wrapper applied by StdIo::import to both load and run failures; hostStack
models exhaustion of the host call stack during unboundedly nested imports. -/
inductive RErr where
  | ctxErr : String → String → RErr
  | impWrap : RErr → RErr
  | hostStack : RErr
deriving DecidableEq

/-- Env::error builds a contextualized runtime error from a message. -/
def Env.error (env : Env) (msg : String) : RErr :=
  RErr.ctxErr env.ctx msg

/-- Modelled from the spec: a compiled module body (the opaque Assembly run by
run_with_backend, which is an external collaborator not part of this slice).
A body is a finite interaction tree over the backend effects the import
subsystem can observe: it may print text, perform a nested import of a path
(continuing with the imported values; a failed nested import propagates), and
finally either return its value stack or fail with a runtime error. -/
inductive Prog where
  | ret : List Value → Prog
  | fail : RErr → Prog
  | print : String → Prog → Prog
  | imp : String → (List Value → Prog) → Prog

/-- Modelled from the spec: the Assembly loader, load_file, resolving a path
string to a compiled module body or a load error. -/
structure World where
  load : String → Except RErr Prog

/-- Observable state of one Standard Backend instance during import-driven
execution: the import cache keyed verbatim by path string, plus two event
traces recording the observable side effects (text printed, and each time a
module body at some path begins executing). -/
structure Sys where
  cache : String → Option (List Value)
  output : List String
  runsStarted : List String

/-- The empty starting state of a fresh backend instance. -/
def sys0 : Sys :=
  { cache := fun _ => none, output := [], runsStarted := [] }

/-- Elementwise copy of a value sequence, modelling Vec::clone on the cached
stack: the returned sequence is a fresh copy, value-equal to the original. -/
def cloneVals (vs : List Value) : List Value :=
  vs.map (fun v => v)

/-- Body of StdIo::import, parameterized by the nested runner (the Assembly's
run_with_backend lent this same backend through the delegating adapter). It
mirrors the source: when the path is not a cache key, load the file (load
failure wrapped as an import error), run it (run failure wrapped as an import
error), insert the resulting stack under the path; in all successful paths,
return a clone of the cache entry at the path. -/
def impCore (run : Prog → Sys → Except RErr (List Value) × Sys)
    (w : World) (p : String) (s : Sys) : Except RErr (List Value) × Sys :=
  match s.cache p with
  | some _ => (Except.ok (cloneVals ((s.cache p).getD [])), s)
  | none =>
    match w.load p with
    | Except.error e => (Except.error (RErr.impWrap e), s)
    | Except.ok prog =>
      match run prog { s with runsStarted := s.runsStarted ++ [p] } with
      | (Except.error e, s2) => (Except.error (RErr.impWrap e), s2)
      | (Except.ok stack, s2) =>
        let c3 : String → Option (List Value) :=
          fun q => if q = p then some stack else s2.cache q
        (Except.ok (cloneVals ((c3 p).getD [])), { s2 with cache := c3 })

/-- Executes a module body against the Standard Backend state. Printing
appends to the output trace; a nested import runs impCore with this same
runner (the backend lent to the nested execution); fuel bounds the depth of
nested import recursion, modelling the finiteness of the host call stack. -/
def runProg (w : World) : Nat → Prog → Sys → Except RErr (List Value) × Sys
  | _, Prog.ret vs, s => (Except.ok vs, s)
  | _, Prog.fail e, s => (Except.error e, s)
  | 0, Prog.print _ _, s => (Except.error RErr.hostStack, s)
  | Nat.succ f, Prog.print t k, s =>
      runProg w f k { s with output := s.output ++ [t] }
  | 0, Prog.imp _ _, s => (Except.error RErr.hostStack, s)
  | Nat.succ f, Prog.imp p k, s =>
      match impCore (fun pr st => runProg w f pr st) w p s with
      | (Except.ok vs, s1) => runProg w f (k vs) s1
      | (Except.error e, s1) => (Except.error e, s1)

/-- StdIo::import itself: impCore driven by the module runner at the given
nesting budget. -/
def stdImport (w : World) (fuel : Nat) (p : String) (s : Sys) :
    Except RErr (List Value) × Sys :=
  impCore (fun pr st => runProg w fuel pr st) w p s

/-- The capability interface (the IoBackend trait) over an abstract backend
state type: the eleven operations, each modelled as an explicit state
transformer (operations taking a shared borrow in the source cannot change the
state, so their state component is returned unchanged by implementations). -/
structure IoBackendOps (σ : Type) where
  print_str : σ → String → σ
  rand : σ → F64 × σ
  scan_line : σ → String × σ
  doImport : σ → String → Env → Except RErr (List Value) × σ
  var : σ → String → Option String × σ
  args : σ → List String × σ
  file_exists : σ → String → Bool × σ
  list_dir : σ → String → Env → Except RErr (List String) × σ
  is_file : σ → String → Env → Except RErr Bool × σ
  read_file : σ → String → Env → Except RErr (List Nat) × σ
  write_file : σ → String → List Nat → Env → Except RErr Unit × σ

/-- The default method bodies of the trait: given the two mandatory operations
(print_str and rand), every other operation gets the documented default, read
off the trait declaration: scan_line returns the empty string, doImport fails
with the Import-unsupported message, var returns none, args returns the empty
sequence, file_exists returns false, and the four file operations fail with
the File-IO-unsupported message; no default touches the state. -/
def mkDefaultBackend (σ : Type) (pr : σ → String → σ) (ra : σ → F64 × σ) :
    IoBackendOps σ :=
  { print_str := pr
    rand := ra
    scan_line := fun s => ("", s)
    doImport := fun s _ env =>
      (Except.error (env.error "Import not supported in this environment"), s)
    var := fun s _ => (none, s)
    args := fun s => ([], s)
    file_exists := fun s _ => (false, s)
    list_dir := fun s _ env =>
      (Except.error (env.error "File IO not supported in this environment"), s)
    is_file := fun s _ env =>
      (Except.error (env.error "File IO not supported in this environment"), s)
    read_file := fun s _ env =>
      (Except.error (env.error "File IO not supported in this environment"), s)
    write_file := fun s _ _ env =>
      (Except.error (env.error "File IO not supported in this environment"), s) }

/-- The delegating adapter: the impl of the trait for an exclusive borrow of
any backend T, forwarding each of the eleven operations verbatim to the
borrowed value, mirroring the source method by method. -/
def borrow {σ : Type} (b : IoBackendOps σ) : IoBackendOps σ :=
  { print_str := fun s t => b.print_str s t
    rand := fun s => b.rand s
    scan_line := fun s => b.scan_line s
    doImport := fun s name env => b.doImport s name env
    var := fun s name => b.var s name
    args := fun s => b.args s
    file_exists := fun s p => b.file_exists s p
    list_dir := fun s p env => b.list_dir s p env
    is_file := fun s p env => b.is_file s p env
    read_file := fun s p env => b.read_file s p env
    write_file := fun s p contents env => b.write_file s p contents env }

/-- Result of a successful host stat call; its is_file flag distinguishes
regular files from directories. -/
structure FMeta where
  isFile : Bool
deriving DecidableEq

/-- Modelled from the spec: the host filesystem as seen through the calls the
Standard Backend makes, a state mapping paths to outcomes: meta is the stat
call (error value is the host error description), readRes the byte read,
dirEntries the directory listing (a list of per-entry outcomes, since each
entry of the host iterator is itself fallible), and writeErr the outcome of a
byte write (none meaning the write succeeds). -/
structure FsState where
  meta : String → Except String FMeta
  readRes : String → Except String (List Nat)
  dirEntries : String → Except String (List (Except String String))
  writeErr : String → Option String

/-- Full mutable state of one Standard Backend instance for the non-import
operations: the import cache, the pseudo-random generator state, and the host
filesystem it acts on. -/
structure BackendState where
  imports : String → Option (List Value)
  rng : Nat
  fs : FsState

/-- StdIo::file_exists: true exactly when the host stat call succeeds; a
shared-borrow operation, so the state is returned unchanged. -/
def fileExistsOp (st : BackendState) (p : String) : Bool × BackendState :=
  (match st.fs.meta p with
   | Except.ok _ => true
   | Except.error _ => false, st)

/-- StdIo::is_file: maps the stat result to its is_file flag, converting a
host error to a runtime error carrying the host description; shared borrow,
state unchanged. -/
def isFileOp (st : BackendState) (p : String) (env : Env) :
    Except RErr Bool × BackendState :=
  (match st.fs.meta p with
   | Except.ok m => Except.ok m.isFile
   | Except.error e => Except.error (env.error e), st)

/-- Collects the per-entry outcomes of a directory iteration in order,
stopping at the first failing entry, which is converted to a runtime error via
the environment handle, as the source loop does. -/
def collectEntries (env : Env) : List (Except String String) →
    Except RErr (List String)
  | [] => Except.ok []
  | Except.error e :: _ => Except.error (env.error e)
  | Except.ok x :: rest =>
    match collectEntries env rest with
    | Except.ok xs => Except.ok (x :: xs)
    | Except.error e => Except.error e

/-- StdIo::list_dir: reads the directory (failure converted via the
environment handle) and collects its entries; shared borrow, state
unchanged. -/
def listDirOp (st : BackendState) (p : String) (env : Env) :
    Except RErr (List String) × BackendState :=
  (match st.fs.dirEntries p with
   | Except.error e => Except.error (env.error e)
   | Except.ok entries => collectEntries env entries, st)

/-- StdIo::read_file: the host byte read, failure converted via the
environment handle; takes the receiver exclusively but changes nothing. -/
def readFileOp (st : BackendState) (p : String) (env : Env) :
    Except RErr (List Nat) × BackendState :=
  (match st.fs.readRes p with
   | Except.ok bs => Except.ok bs
   | Except.error e => Except.error (env.error e), st)

/-- StdIo::write_file: the host byte write; on success the filesystem now
stats the path as a regular file and reads back exactly the written bytes, on
failure the host error is converted via the environment handle. -/
def writeFileOp (st : BackendState) (p : String) (bytes : List Nat)
    (env : Env) : Except RErr Unit × BackendState :=
  match st.fs.writeErr p with
  | some e => (Except.error (env.error e), st)
  | none =>
    (Except.ok (),
     { st with fs :=
        { st.fs with
          meta := fun q => if q = p then Except.ok ⟨true⟩ else st.fs.meta q
          readRes := fun q =>
            if q = p then Except.ok bytes else st.fs.readRes q } })

/-- StdIo::rand: draws from the backend-local generator, mutating its state;
the numeric draw itself is abstract. -/
def randOp (st : BackendState) : F64 × BackendState :=
  (⟨st.rng⟩, { st with rng := st.rng + 1 })

/-- Modelled from the spec: the host process invocation, a program name (when
the host provides one) followed by the arguments proper; env::args yields the
program name first, then the arguments. -/
structure HostArgs where
  progName : Option String
  rest : List String

/-- The full vector the host's env::args iterator yields. -/
def envArgs (h : HostArgs) : List String :=
  (match h.progName with
   | some n => [n]
   | none => []) ++ h.rest

/-- StdIo::args: collects the host invocation iterator verbatim. -/
def stdArgs (h : HostArgs) : List String :=
  envArgs h

theorem cloneVals_eq (vs : List Value) : cloneVals vs = vs := by
  simp [cloneVals]

theorem impCore_hit (run : Prog → Sys → Except RErr (List Value) × Sys)
    (w : World) (p : String) (s : Sys) (vs : List Value)
    (h : s.cache p = some vs) : impCore run w p s = (Except.ok vs, s) := by
  simp [impCore, h, cloneVals_eq]

theorem impCore_loadErr (run : Prog → Sys → Except RErr (List Value) × Sys)
    (w : World) (p : String) (s : Sys) (e : RErr)
    (hc : s.cache p = none) (hl : w.load p = Except.error e) :
    impCore run w p s = (Except.error (RErr.impWrap e), s) := by
  simp [impCore, hc, hl]

theorem impCore_runErr (run : Prog → Sys → Except RErr (List Value) × Sys)
    (w : World) (p : String) (s : Sys) (prog : Prog) (e : RErr) (s2 : Sys)
    (hc : s.cache p = none) (hl : w.load p = Except.ok prog)
    (hr : run prog { s with runsStarted := s.runsStarted ++ [p] }
        = (Except.error e, s2)) :
    impCore run w p s = (Except.error (RErr.impWrap e), s2) := by
  simp [impCore, hc, hl, hr]

theorem impCore_runOk (run : Prog → Sys → Except RErr (List Value) × Sys)
    (w : World) (p : String) (s : Sys) (prog : Prog) (stack : List Value)
    (s2 : Sys)
    (hc : s.cache p = none) (hl : w.load p = Except.ok prog)
    (hr : run prog { s with runsStarted := s.runsStarted ++ [p] }
        = (Except.ok stack, s2)) :
    impCore run w p s = (Except.ok stack,
      { s2 with cache := fun q => if q = p then some stack else s2.cache q })
    := by
  simp [impCore, hc, hl, hr, cloneVals_eq]

theorem impCore_keeps (run : Prog → Sys → Except RErr (List Value) × Sys)
    (hrun : ∀ pr st q v, st.cache q = some v →
      ((run pr st).2).cache q = some v)
    (w : World) (p : String) (s : Sys) (q : String) (v : List Value)
    (h : s.cache q = some v) : ((impCore run w p s).2).cache q = some v := by
  cases hc : s.cache p with
  | some vs => rw [impCore_hit run w p s vs hc]; exact h
  | none =>
    cases hl : w.load p with
    | error e => rw [impCore_loadErr run w p s e hc hl]; exact h
    | ok prog =>
      have hst : ({ s with runsStarted := s.runsStarted ++ [p] } : Sys).cache q
          = some v := h
      cases hr : run prog { s with runsStarted := s.runsStarted ++ [p] } with
      | mk r s2 =>
        have h2 : s2.cache q = some v := by
          have := hrun prog { s with runsStarted := s.runsStarted ++ [p] } q v
            hst
          rw [hr] at this
          exact this
        cases r with
        | error e => rw [impCore_runErr run w p s prog e s2 hc hl hr]; exact h2
        | ok stack =>
          rw [impCore_runOk run w p s prog stack s2 hc hl hr]
          show (if q = p then some stack else s2.cache q) = some v
          by_cases hqp : q = p
          · subst hqp
            rw [h] at hc
            exact absurd hc (by simp)
          · simp [hqp, h2]

theorem runProg_keeps (w : World) : ∀ (f : Nat) (prog : Prog) (s : Sys)
    (q : String) (v : List Value), s.cache q = some v →
    ((runProg w f prog s).2).cache q = some v := by
  intro f
  induction f with
  | zero =>
    intro prog s q v h
    cases prog <;> simpa [runProg] using h
  | succ f ih =>
    intro prog s q v h
    cases prog with
    | ret vs => simpa [runProg] using h
    | fail e => simpa [runProg] using h
    | print t k =>
      have := ih k { s with output := s.output ++ [t] } q v h
      simpa [runProg] using this
    | imp p k =>
      have hkeep : ((impCore (fun pr st => runProg w f pr st) w p s).2).cache q
          = some v :=
        impCore_keeps _ (fun pr st q' v' h' => ih pr st q' v' h') w p s q v h
      cases hr : impCore (fun pr st => runProg w f pr st) w p s with
      | mk r s1 =>
        rw [hr] at hkeep
        cases r with
        | ok vs =>
          have := ih (k vs) s1 q v hkeep
          simpa [runProg, hr] using this
        | error e => simpa [runProg, hr] using hkeep

theorem runProg_trace (w : World) : ∀ (f : Nat) (prog : Prog) (s : Sys),
    ∃ t, ((runProg w f prog s).2).runsStarted = s.runsStarted ++ t := by
  intro f
  induction f with
  | zero =>
    intro prog s
    cases prog <;> exact ⟨[], by simp [runProg]⟩
  | succ f ih =>
    intro prog s
    cases prog with
    | ret vs => exact ⟨[], by simp [runProg]⟩
    | fail e => exact ⟨[], by simp [runProg]⟩
    | print t k =>
      obtain ⟨t1, ht1⟩ := ih k { s with output := s.output ++ [t] }
      exact ⟨t1, by simpa [runProg] using ht1⟩
    | imp p k =>
      cases hc : s.cache p with
      | some vs =>
        have hi := impCore_hit (fun pr st => runProg w f pr st) w p s vs hc
        obtain ⟨t1, ht1⟩ := ih (k vs) s
        exact ⟨t1, by simpa [runProg, hi] using ht1⟩
      | none =>
        cases hl : w.load p with
        | error e =>
          have hi := impCore_loadErr (fun pr st => runProg w f pr st) w p s e
            hc hl
          exact ⟨[], by simp [runProg, hi]⟩
        | ok prog =>
          obtain ⟨t1, ht1⟩ :=
            ih prog { s with runsStarted := s.runsStarted ++ [p] }
          cases hr : runProg w f prog
              { s with runsStarted := s.runsStarted ++ [p] } with
          | mk r s2 =>
            rw [hr] at ht1
            cases r with
            | error e =>
              have hi := impCore_runErr (fun pr st => runProg w f pr st) w p s
                prog e s2 hc hl hr
              exact ⟨[p] ++ t1, by simpa [runProg, hi] using ht1⟩
            | ok stack =>
              have hi := impCore_runOk (fun pr st => runProg w f pr st) w p s
                prog stack s2 hc hl hr
              obtain ⟨t2, ht2⟩ := ih (k stack)
                { s2 with cache := fun q => if q = p then some stack
                    else s2.cache q }
              refine ⟨[p] ++ t1 ++ t2, ?_⟩
              rw [show runProg w (Nat.succ f) (Prog.imp p k) s
                  = runProg w f (k stack)
                    { s2 with cache := fun q => if q = p then some stack
                        else s2.cache q } from by simp [runProg, hi]]
              rw [ht2]
              have ht1a : s2.runsStarted = s.runsStarted ++ [p] ++ t1 := by
                simpa using ht1
              simp [ht1a, List.append_assoc]

theorem stdImport_ok_cached (w : World) (fuel : Nat) (p : String) (s : Sys)
    (vs : List Value) (s1 : Sys)
    (h : stdImport w fuel p s = (Except.ok vs, s1)) : s1.cache p = some vs
    := by
  cases hc : s.cache p with
  | some vs0 =>
    rw [stdImport, impCore_hit _ w p s vs0 hc] at h
    obtain ⟨h1, h2⟩ := Prod.mk.injEq _ _ _ _ ▸ h
    rw [← h2, hc]
    exact congrArg some (Except.ok.injEq _ _ ▸ h1)
  | none =>
    cases hl : w.load p with
    | error e =>
      rw [stdImport, impCore_loadErr _ w p s e hc hl] at h
      exact absurd (Prod.mk.injEq _ _ _ _ ▸ h).1 (by simp)
    | ok prog =>
      cases hr : runProg w fuel prog
          { s with runsStarted := s.runsStarted ++ [p] } with
      | mk r s2 =>
        cases r with
        | error e =>
          rw [stdImport, impCore_runErr _ w p s prog e s2 hc hl hr] at h
          exact absurd (Prod.mk.injEq _ _ _ _ ▸ h).1 (by simp)
        | ok stack =>
          rw [stdImport, impCore_runOk _ w p s prog stack s2 hc hl hr] at h
          obtain ⟨h1, h2⟩ := Prod.mk.injEq _ _ _ _ ▸ h
          have hst : stack = vs := Except.ok.injEq _ _ ▸ h1
          rw [← h2]
          simp [hst]

theorem stdImport_hit (w : World) (fuel : Nat) (p : String) (s : Sys)
    (vs : List Value) (h : s.cache p = some vs) :
    stdImport w fuel p s = (Except.ok vs, s) :=
  impCore_hit _ w p s vs h

theorem stdImport_keeps (w : World) (fuel : Nat) (p : String) (s : Sys)
    (q : String) (v : List Value) (h : s.cache q = some v) :
    ((stdImport w fuel p s).2).cache q = some v :=
  impCore_keeps _ (fun pr st q' v' h' => runProg_keeps w fuel pr st q' v' h')
    w p s q v h

theorem impCore_runs (w : World) (fuel : Nat) (p : String) (s : Sys)
    (prog : Prog) (hc : s.cache p = none) (hl : w.load p = Except.ok prog) :
    ∃ t, ((stdImport w fuel p s).2).runsStarted = s.runsStarted ++ [p] ++ t
    := by
  obtain ⟨t1, ht1⟩ := runProg_trace w fuel prog
    { s with runsStarted := s.runsStarted ++ [p] }
  cases hr : runProg w fuel prog
      { s with runsStarted := s.runsStarted ++ [p] } with
  | mk r s2 =>
    rw [hr] at ht1
    cases r with
    | error e =>
      have hi := impCore_runErr (fun pr st => runProg w fuel pr st) w p s
        prog e s2 hc hl hr
      exact ⟨t1, by simpa [stdImport, hi] using ht1⟩
    | ok stack =>
      have hi := impCore_runOk (fun pr st => runProg w fuel pr st) w p s
        prog stack s2 hc hl hr
      exact ⟨t1, by simpa [stdImport, hi] using ht1⟩

/-- A world with one module, at path p, whose body prints hi and then
performs a nested import of p itself: a self-import cycle, which the source
does not detect (insertion into the cache happens only after the body has run
to completion, so the re-entrant import misses the cache and re-runs the
body). -/
def wSelf : World :=
  { load := fun q =>
      if q = "p" then
        Except.ok (Prog.print "hi" (Prog.imp "p" (fun _ => Prog.ret [])))
      else Except.error (RErr.ctxErr "" "no such file") }

/-- C1, counterexample: one single import of path p on a fresh Standard
Backend prints the module's text twice and begins executing the module body
three times, because the module imports itself and the cache entry is only
inserted after the body completes. The module's top-level side effects
therefore occur more than once, refuting the unconditional at-most-once
claim. -/
theorem selfImportPrintsTwice :
    ((stdImport wSelf 4 "p" sys0).2).output = ["hi", "hi"] ∧
    ((stdImport wSelf 4 "p" sys0).2).runsStarted = ["p", "p", "p"] :=
  ⟨rfl, rfl⟩

/-- C1, amended: once an import of p has succeeded, the resulting sequence is
stored in the cache under p; the entry survives any further execution on the
same backend instance; and every import of p at a state holding that entry
returns the cached sequence with the state untouched, so the module body is
never executed again after the first successful import. (The unconditional
at-most-once property fails for cyclic imports, where the body is re-entered
before its cache entry exists.) -/
theorem importMemoizedAfterSuccess (w : World) (fuel : Nat) (p : String)
    (s : Sys) (vs : List Value) (s1 : Sys)
    (h : stdImport w fuel p s = (Except.ok vs, s1)) :
    s1.cache p = some vs ∧
    (∀ (f2 : Nat) (prog : Prog),
      ((runProg w f2 prog s1).2).cache p = some vs) ∧
    (∀ (f3 : Nat) (s2 : Sys), s2.cache p = some vs →
      stdImport w f3 p s2 = (Except.ok vs, s2)) := by
  have h1 : s1.cache p = some vs := stdImport_ok_cached w fuel p s vs s1 h
  exact ⟨h1, fun f2 prog => runProg_keeps w f2 prog s1 p vs h1,
    fun f3 s2 h2 => stdImport_hit w f3 p s2 vs h2⟩

/-- A world with one module at path a whose body returns the single value 1
without side effects. -/
def wA : World :=
  { load := fun q =>
      if q = "a" then Except.ok (Prog.ret [⟨1⟩])
      else Except.error (RErr.ctxErr "" "no such file") }

/-- C1, witness: after a successful import of a in the world wA, the cache
holds the returned stack and a later import returns it with the state
untouched. -/
theorem importMemoizedAfterSuccessW :
    ((stdImport wA 0 "a" sys0).2).cache "a" = some [⟨1⟩] ∧
    stdImport wA 3 "a" ((stdImport wA 0 "a" sys0).2)
      = (Except.ok [⟨1⟩], (stdImport wA 0 "a" sys0).2) := by
  obtain ⟨h1, h2, h3⟩ := importMemoizedAfterSuccess wA 0 "a" sys0 [⟨1⟩]
    ((stdImport wA 0 "a" sys0).2) rfl
  exact ⟨h1, h3 3 _ h1⟩

/-- C2: a successful import of p stores its result-sequence vs in the cache;
after any further execution interleaved on the same backend, a second import
of p returns an elementwise copy (cloneVals, the model of Vec::clone) of the
cached sequence, value-equal to the first result, and leaves the whole state,
in particular the cached original, unchanged. The returned sequence is a
fresh copy produced by cloneVals, not the cache entry itself, so what
an importer later does with its copy cannot reach the cached original. -/
theorem importTwiceValueEqual (w : World) (f1 : Nat) (p : String) (s : Sys)
    (vs : List Value) (s1 : Sys)
    (h : stdImport w f1 p s = (Except.ok vs, s1)) :
    s1.cache p = some vs ∧ cloneVals vs = vs ∧
    (∀ (f2 : Nat) (prog : Prog) (f3 : Nat),
      stdImport w f3 p ((runProg w f2 prog s1).2)
        = (Except.ok (cloneVals vs), (runProg w f2 prog s1).2)) := by
  have h1 : s1.cache p = some vs := stdImport_ok_cached w f1 p s vs s1 h
  refine ⟨h1, cloneVals_eq vs, fun f2 prog f3 => ?_⟩
  have h2 : ((runProg w f2 prog s1).2).cache p = some vs :=
    runProg_keeps w f2 prog s1 p vs h1
  rw [cloneVals_eq vs]
  exact stdImport_hit w f3 p _ vs h2

/-- C2, witness: in the world wA, importing a, running a trivial interleaved
body, then importing a again returns the same sequence with the backend state
unchanged. -/
theorem importTwiceValueEqualW :
    stdImport wA 5 "a"
        ((runProg wA 0 (Prog.ret []) ((stdImport wA 0 "a" sys0).2)).2)
      = (Except.ok (cloneVals [⟨1⟩]),
         (runProg wA 0 (Prog.ret []) ((stdImport wA 0 "a" sys0).2)).2) := by
  obtain ⟨h1, h2, h3⟩ := importTwiceValueEqual wA 0 "a" sys0 [⟨1⟩]
    ((stdImport wA 0 "a" sys0).2) rfl
  exact h3 0 (Prog.ret []) 5

/-- A world with a module at path q returning the value 7, and a module at
path p whose body first imports q successfully and then fails. -/
def wFail : World :=
  { load := fun q =>
      if q = "q" then Except.ok (Prog.ret [⟨7⟩])
      else if q = "p" then
        Except.ok (Prog.imp "q" (fun _ => Prog.fail (RErr.ctxErr "m" "boom")))
      else Except.error (RErr.ctxErr "" "no such file") }

/-- C3, counterexample: in the world wFail, import of p on a fresh Standard
Backend fails (the nested run fails and the error propagates wrapped as
an import error), yet the import cache is not left unchanged: the
transitive import of q performed before the failure stays cached. Only the
entry for p itself is absent. -/
theorem failedImportChangesCache :
    (stdImport wFail 2 "p" sys0).1
      = Except.error (RErr.impWrap (RErr.ctxErr "m" "boom")) ∧
    ((stdImport wFail 2 "p" sys0).2).cache "q" = some [⟨7⟩] ∧
    sys0.cache "q" = none ∧
    ((stdImport wFail 2 "p" sys0).2).cache "p" = none :=
  ⟨rfl, rfl, rfl, rfl⟩

/-- C3, amended: when the load of p fails, the import fails with the wrapped
load error and the entire state, cache included, is unchanged; when the
nested execution of p fails, the import fails with the wrapped run error and
returns exactly the nested run's final state, inserting no entry for p itself
(entries created by successful transitive imports before the failure remain);
and at any state where p is uncached, an import of p loads and begins
executing the module again, so a failed import is retried from the
beginning. -/
theorem importFailureNoEntry (w : World) (fuel : Nat) (p : String) (s : Sys) :
    (∀ e : RErr, s.cache p = none → w.load p = Except.error e →
      stdImport w fuel p s = (Except.error (RErr.impWrap e), s)) ∧
    (∀ (prog : Prog) (e : RErr) (s2 : Sys), s.cache p = none →
      w.load p = Except.ok prog →
      runProg w fuel prog { s with runsStarted := s.runsStarted ++ [p] }
        = (Except.error e, s2) →
      stdImport w fuel p s = (Except.error (RErr.impWrap e), s2)) ∧
    (∀ prog : Prog, s.cache p = none → w.load p = Except.ok prog →
      ∃ t, ((stdImport w fuel p s).2).runsStarted
        = s.runsStarted ++ [p] ++ t) := by
  refine ⟨fun e hc hl => impCore_loadErr _ w p s e hc hl,
    fun prog e s2 hc hl hr => impCore_runErr _ w p s prog e s2 hc hl hr,
    fun prog hc hl => impCore_runs w fuel p s prog hc hl⟩

/-- C3, witness: in the world wFail, importing the unknown path x fails with
the wrapped load error and leaves the fresh state entirely unchanged, and a
retry at that state executes the load again; for the module p whose run
fails, the failed import returns the nested run's state with the run error
wrapped. -/
theorem importFailureNoEntryW :
    stdImport wFail 3 "x" sys0
      = (Except.error (RErr.impWrap (RErr.ctxErr "" "no such file")), sys0) ∧
    (∃ t, ((stdImport wFail 3 "p" sys0).2).runsStarted = [] ++ ["p"] ++ t) :=
  ⟨(importFailureNoEntry wFail 3 "x" sys0).1 (RErr.ctxErr "" "no such file")
      rfl rfl,
   (importFailureNoEntry wFail 3 "p" sys0).2.2
      (Prog.imp "q" (fun _ => Prog.fail (RErr.ctxErr "m" "boom"))) rfl rfl⟩

/-- C4: on a backend that overrides only the two mandatory operations, every
optional operation yields exactly the documented default with no other
effect: scan_line the empty string, var none for every name, args the empty
sequence, file_exists false for every path, the import operation the error
with message Import not supported in this environment, and list_dir, is_file,
read_file, write_file each the error with message File IO not supported in
this environment; every default leaves the state exactly as it was. -/
theorem defaultOpsBehavior (σ : Type) (pr : σ → String → σ)
    (ra : σ → F64 × σ) (s : σ) (name : String) (env : Env) (p : String)
    (bytes : List Nat) :
    (mkDefaultBackend σ pr ra).scan_line s = ("", s) ∧
    (mkDefaultBackend σ pr ra).doImport s name env
      = (Except.error
          (RErr.ctxErr env.ctx "Import not supported in this environment"),
         s) ∧
    (mkDefaultBackend σ pr ra).var s name = (none, s) ∧
    (mkDefaultBackend σ pr ra).args s = ([], s) ∧
    (mkDefaultBackend σ pr ra).file_exists s p = (false, s) ∧
    (mkDefaultBackend σ pr ra).list_dir s p env
      = (Except.error
          (RErr.ctxErr env.ctx "File IO not supported in this environment"),
         s) ∧
    (mkDefaultBackend σ pr ra).is_file s p env
      = (Except.error
          (RErr.ctxErr env.ctx "File IO not supported in this environment"),
         s) ∧
    (mkDefaultBackend σ pr ra).read_file s p env
      = (Except.error
          (RErr.ctxErr env.ctx "File IO not supported in this environment"),
         s) ∧
    (mkDefaultBackend σ pr ra).write_file s p bytes env
      = (Except.error
          (RErr.ctxErr env.ctx "File IO not supported in this environment"),
         s) :=
  ⟨rfl, rfl, rfl, rfl, rfl, rfl, rfl, rfl, rfl⟩

/-- C5: the delegating adapter built from an exclusive borrow of any backend
forwards each of the eleven operations unchanged: invoked through the borrow,
every operation returns exactly the same result and the same final state as
the same operation invoked directly on the underlying backend, for all
inputs, so the adapter is observationally transparent. -/
theorem borrowTransparent (σ : Type) (b : IoBackendOps σ) (s : σ)
    (t name p : String) (env : Env) (bytes : List Nat) :
    (borrow b).print_str s t = b.print_str s t ∧
    (borrow b).rand s = b.rand s ∧
    (borrow b).scan_line s = b.scan_line s ∧
    (borrow b).doImport s name env = b.doImport s name env ∧
    (borrow b).var s name = b.var s name ∧
    (borrow b).args s = b.args s ∧
    (borrow b).file_exists s p = b.file_exists s p ∧
    (borrow b).list_dir s p env = b.list_dir s p env ∧
    (borrow b).is_file s p env = b.is_file s p env ∧
    (borrow b).read_file s p env = b.read_file s p env ∧
    (borrow b).write_file s p bytes env = b.write_file s p bytes env :=
  ⟨rfl, rfl, rfl, rfl, rfl, rfl, rfl, rfl, rfl, rfl, rfl⟩

/-- A world with two distinct case-variant module paths, a and A, each loading
its own module with a distinct result. -/
def wCase : World :=
  { load := fun q =>
      if q = "a" then Except.ok (Prog.ret [⟨1⟩])
      else if q = "A" then Except.ok (Prog.ret [⟨2⟩])
      else Except.error (RErr.ctxErr "" "no such file") }

/-- C6: the import cache is keyed by the exact path string. For any two
distinct strings p and q, an existing entry for q never serves an import of
p: with p uncached, importing p loads and executes p's own module (first
conjunct) while q's entry is untouched (second conjunct); whereas an import
with the identical string q hits the shared entry and returns it with no
execution and no state change at all (third conjunct). -/
theorem cacheKeyExactString (w : World) (fuel : Nat) (p q : String) (s : Sys)
    (vsq : List Value) (_hne : p ≠ q) (hq : s.cache q = some vsq)
    (hp : s.cache p = none) :
    (∀ prog : Prog, w.load p = Except.ok prog →
      ∃ t, ((stdImport w fuel p s).2).runsStarted
        = s.runsStarted ++ [p] ++ t) ∧
    ((stdImport w fuel p s).2).cache q = some vsq ∧
    (∀ f2 : Nat, stdImport w f2 q s = (Except.ok vsq, s)) := by
  refine ⟨fun prog hl => impCore_runs w fuel p s prog hp hl,
    stdImport_keeps w fuel p s q vsq hq,
    fun f2 => stdImport_hit w f2 q s vsq hq⟩

/-- C6, witness: in the world wCase, after caching the module at path A, an
attempt on the case-variant path a executes the module at a (the cached
entry under A does not serve it), leaves the entry under A untouched, and
an import with the identical string A returns the shared entry unchanged. -/
theorem cacheKeyExactStringW :
    (∃ t, Sys.runsStarted
        ((stdImport wCase 2 "a" ((stdImport wCase 0 "A" sys0).2)).2)
        = ["A"] ++ ["a"] ++ t) ∧
    ((stdImport wCase 2 "a" ((stdImport wCase 0 "A" sys0).2)).2).cache "A"
      = some [⟨2⟩] ∧
    stdImport wCase 2 "A" ((stdImport wCase 0 "A" sys0).2)
      = (Except.ok [⟨2⟩], (stdImport wCase 0 "A" sys0).2) := by
  obtain ⟨h1, h2, h3⟩ := cacheKeyExactString wCase 2 "a" "A"
    ((stdImport wCase 0 "A" sys0).2) [⟨2⟩] (by decide) rfl rfl
  exact ⟨h1 (Prog.ret [⟨1⟩]) rfl, h2, h3 2⟩

/-- C7: on the Standard Backend, file_exists answers true exactly when the
host stat call on the path succeeds; every stat failure of any kind yields
false; the operation is total (it returns a boolean, never an error) and
leaves the backend state, import cache, generator and filesystem alike,
exactly as it was. -/
theorem fileExistsIffStatOk (st : BackendState) (p : String) :
    ((fileExistsOp st p).1 = true ↔ ∃ m, st.fs.meta p = Except.ok m) ∧
    (∀ e, st.fs.meta p = Except.error e → (fileExistsOp st p).1 = false) ∧
    (fileExistsOp st p).2 = st := by
  refine ⟨⟨fun h => ?_, fun h => ?_⟩, fun e he => ?_, rfl⟩
  · cases hm : st.fs.meta p with
    | ok m => exact ⟨m, rfl⟩
    | error e => simp [fileExistsOp, hm] at h
  · obtain ⟨m, hm⟩ := h
    simp [fileExistsOp, hm]
  · simp [fileExistsOp, he]

/-- C8: on the Standard Backend, with the host filesystem modelled as a state
mapping paths to byte sequences, a successful write_file of bytes at a path
makes an immediately following read_file of that path succeed and return
exactly those bytes, with no further state change. -/
theorem writeReadRoundTrip (st : BackendState) (p : String) (bytes : List Nat)
    (env env2 : Env) (st2 : BackendState)
    (h : writeFileOp st p bytes env = (Except.ok (), st2)) :
    readFileOp st2 p env2 = (Except.ok bytes, st2) := by
  cases hw : st.fs.writeErr p with
  | some e =>
    rw [show writeFileOp st p bytes env
        = (Except.error (env.error e), st) from by simp [writeFileOp, hw]]
      at h
    exact absurd (Prod.mk.injEq _ _ _ _ ▸ h).1 (by simp)
  | none =>
    rw [show writeFileOp st p bytes env = (Except.ok (),
        { st with fs :=
          { st.fs with
            meta := fun q => if q = p then Except.ok ⟨true⟩ else st.fs.meta q
            readRes := fun q =>
              if q = p then Except.ok bytes else st.fs.readRes q } })
      from by simp [writeFileOp, hw]] at h
    have h2 := (Prod.mk.injEq _ _ _ _ ▸ h).2
    rw [← h2]
    simp [readFileOp]

/-- A host filesystem on which every stat, read and listing fails but every
write succeeds. -/
def fs0 : FsState :=
  { meta := fun _ => Except.error "not found"
    readRes := fun _ => Except.error "not found"
    dirEntries := fun _ => Except.error "not found"
    writeErr := fun _ => none }

/-- A fresh Standard Backend over the filesystem fs0. -/
def bst0 : BackendState :=
  { imports := fun _ => none, rng := 0, fs := fs0 }

/-- C8, witness: writing the bytes 1, 2 at a path on the fresh backend and
reading the path back returns exactly those bytes. -/
theorem writeReadRoundTripW :
    readFileOp ((writeFileOp bst0 "f" [1, 2] ⟨"c"⟩).2) "f" ⟨"d"⟩
      = (Except.ok [1, 2], (writeFileOp bst0 "f" [1, 2] ⟨"c"⟩).2) :=
  writeReadRoundTrip bst0 "f" [1, 2] ⟨"c"⟩ ⟨"d"⟩ _ rfl

/-- C9: on the Standard Backend, args collects the full host invocation
vector: whenever the host provides a program name, the returned sequence is
that name followed by the arguments proper, hence has the program name as its
first element and is non-empty. -/
theorem argsIncludesProgName (h : HostArgs) (n : String)
    (hn : h.progName = some n) :
    stdArgs h = n :: h.rest ∧ (stdArgs h).head? = some n ∧ stdArgs h ≠ [] :=
  by simp [stdArgs, envArgs, hn]

/-- C9, witness: a host invocation with program name prog and single argument
x yields the two-element vector headed by prog. -/
theorem argsIncludesProgNameW :
    stdArgs ⟨some "prog", ["x"]⟩ = "prog" :: ["x"] ∧
    (stdArgs ⟨some "prog", ["x"]⟩).head? = some "prog" ∧
    stdArgs ⟨some "prog", ["x"]⟩ ≠ [] :=
  argsIncludesProgName ⟨some "prog", ["x"]⟩ "prog" rfl

/-- C10: the shared-borrow operations file_exists, is_file and list_dir of
the Standard Backend modify no backend state at all: after any such call the
whole backend state, in particular the import cache and the pseudo-random
generator state, is exactly what it was before. -/
theorem readOnlyOpsPreserveState (st : BackendState) (p : String)
    (env : Env) :
    (fileExistsOp st p).2 = st ∧
    (isFileOp st p env).2 = st ∧
    (listDirOp st p env).2 = st ∧
    ((fileExistsOp st p).2).imports = st.imports ∧
    ((isFileOp st p env).2).rng = st.rng ∧
    ((listDirOp st p env).2).imports = st.imports :=
  ⟨rfl, rfl, rfl, rfl, rfl, rfl⟩
